import Mathlib

/-!
Verification of the inFakt MCP server (TypeScript) against its specification.

The TypeScript sources are shallowly embedded:
* JavaScript numbers are idealized as `JsNum`: NaN, signed infinity, or an
  exact rational (`ℚ`).  Double rounding and overflow are not modelled; every
  arithmetic step the code performs is mirrored exactly on rationals.
* JSON-like runtime values are the nested inductive `JVal` (null, undefined,
  boolean, number, string, array, object).  Objects are modelled as the entry
  list `Object.entries` yields; keys are assumed distinct as produced by
  object literals.
* `throw` in the validation code is modelled with `Except`; a thrown
  `ValidationError` is the `ValidationError` structure, a plain
  `new Error(msg)` is `Thrown.genErr msg`.
* Ambient platform builtins that the code merely pipes data through
  (`JSON.stringify`, the `new URL` validity test) are passed in as explicit
  function parameters.
-/

/-- Model of a JavaScript number: NaN, a signed infinity, or an exact
rational.  (IEEE-754 rounding is idealized away; all arithmetic used by the
code is exact on the values the claims concern.) -/
inductive JsNum where
  | nan : JsNum
  | inf (positive : Bool) : JsNum
  | num (q : ℚ) : JsNum
deriving DecidableEq

/-- `Math.round`: round half toward positive infinity; NaN and the infinities
map to themselves. -/
def jsRound : JsNum → JsNum
  | .nan => .nan
  | .inf p => .inf p
  | .num q => .num (⌊q + 1 / 2⌋ : ℤ)

/-- Division of a JS number by a positive rational constant (the code only
divides by 100). -/
def jsDivC (x : JsNum) (c : ℚ) : JsNum :=
  match x with
  | .nan => .nan
  | .inf p => .inf p
  | .num q => .num (q / c)

/-- Multiplication of a JS number by a positive rational constant (the code
only multiplies by 100). -/
def jsMulC (x : JsNum) (c : ℚ) : JsNum :=
  match x with
  | .nan => .nan
  | .inf p => .inf p
  | .num q => .num (q * c)

/-- Whitespace for the JS lexical grammar (the common characters; exotic
Unicode space separators are not modelled). -/
def isJsWhitespace (c : Char) : Bool :=
  c = ' ' || c = '\t' || c = '\n' || c = '\r' || c = '\x0b' || c = '\x0c'

/-- A decimal digit `0`-`9` (the regex class `\d`). -/
def isDigit (c : Char) : Bool :=
  48 ≤ c.toNat && c.toNat ≤ 57

/-- Numeric value of a decimal digit character. -/
def digitVal (c : Char) : ℕ := c.toNat - 48

/-- Takes the longest digit prefix, as digit values, with the rest. -/
def takeDigits : List Char → List ℕ × List Char
  | [] => ([], [])
  | c :: cs =>
    if isDigit c then
      let r := takeDigits cs
      (digitVal c :: r.1, r.2)
    else ([], c :: cs)

/-- The natural number a digit-value list denotes, most significant first. -/
def natOfDigits (ds : List ℕ) : ℕ := ds.foldl (fun a d => 10 * a + d) 0

/-- The sign prefix of a StrDecimalLiteral: whether negative, and the rest. -/
def parseSign : List Char → Bool × List Char
  | '-' :: cs => (true, cs)
  | '+' :: cs => (false, cs)
  | cs => (false, cs)

/-- The optional exponent part `[eE][+-]?digits` of a decimal literal; an
ill-formed exponent is ignored (JS takes the longest valid literal prefix). -/
def parseExponent (cs : List Char) : ℤ :=
  match cs with
  | 'e' :: rest | 'E' :: rest =>
    let sr := parseSign rest
    let dr := takeDigits sr.2
    if dr.1 = [] then 0
    else if sr.1 then -(natOfDigits dr.1 : ℤ) else (natOfDigits dr.1 : ℤ)
  | _ => 0

/-- `parseFloat`: skip leading whitespace, read an optional sign, then either
`Infinity` or a decimal mantissa with an optional exponent; NaN when no digit
of a mantissa (and no `Infinity`) is found.  Trailing garbage is ignored. -/
def parseFloat (s : String) : JsNum :=
  let cs := s.toList.dropWhile isJsWhitespace
  let sr := parseSign cs
  let neg := sr.1
  if ("Infinity".toList).isPrefixOf sr.2 then .inf (!neg)
  else
    let intPart := takeDigits sr.2
    let fracPart : List ℕ × List Char :=
      match intPart.2 with
      | '.' :: rest => takeDigits rest
      | _ => ([], intPart.2)
    if intPart.1 = [] ∧ fracPart.1 = [] then .nan
    else
      let mant : ℚ :=
        (natOfDigits intPart.1 : ℚ) +
          (natOfDigits fracPart.1 : ℚ) / ((10 : ℚ) ^ fracPart.1.length)
      let e : ℤ := parseExponent fracPart.2
      let v : ℚ := mant * (10 : ℚ) ^ e
      .num (if neg then -v else v)

/-- The TS union `number | string` taken by `groszeToPLN`. -/
inductive NumOrStr where
  | ofNum (x : JsNum) : NumOrStr
  | ofStr (s : String) : NumOrStr

/-- `groszeToPLN` (src/currency.ts): a string input goes through `parseFloat`,
then `Math.round(value) / 100`. -/
def groszeToPLN (grosze : NumOrStr) : JsNum :=
  let value : JsNum :=
    match grosze with
    | .ofStr s => parseFloat s
    | .ofNum x => x
  jsDivC (jsRound value) 100

/-- `plnToGrosze` (src/currency.ts): `Math.round(pln * 100)`. -/
def plnToGrosze (pln : JsNum) : JsNum :=
  jsRound (jsMulC pln 100)

/-- JSON-like runtime values: null, undefined, booleans, numbers, strings,
arrays, and objects as entry lists (in `Object.entries` order, keys
distinct). -/
inductive JVal where
  | null : JVal
  | undefined : JVal
  | bool (b : Bool) : JVal
  | num (x : JsNum) : JVal
  | str (s : String) : JVal
  | arr (items : List JVal) : JVal
  | obj (entries : List (String × JVal)) : JVal

/-- JS truthiness of a value. -/
def jsTruthy : JVal → Bool
  | .null => false
  | .undefined => false
  | .bool b => b
  | .num .nan => false
  | .num (.num q) => decide (q ≠ 0)
  | .num (.inf _) => true
  | .str s => s ≠ ""
  | .arr _ => true
  | .obj _ => true

/-- `typeof x === "object"` (true for null, arrays and plain objects). -/
def isObjectType : JVal → Bool
  | .null => true
  | .arr _ => true
  | .obj _ => true
  | _ => false

/-- Property access `v[key]`: `undefined` unless `v` is an object holding the
key (keys are distinct in every modelled object, so first match suffices). -/
def jsGet (v : JVal) (key : String) : JVal :=
  match v with
  | .obj entries =>
    match entries.lookup key with
    | some w => w
    | none => .undefined
  | _ => .undefined

/-- `MONETARY_FIELDS` (src/currency.ts): recognized monetary field names. -/
def MONETARY_FIELDS : List String :=
  ["net_price", "gross_price", "tax_price", "unit_net_price",
   "unit_gross_price", "price", "amount", "total", "value"]

/-- The per-entry conversion for a recognized monetary key: numbers and
strings go through `groszeToPLN`, anything else is kept as it is (the
`typeof value === 'number' || typeof value === 'string'` test). -/
def convertMonetaryValue : JVal → JVal
  | .num x => .num (groszeToPLN (.ofNum x))
  | .str s => .num (groszeToPLN (.ofStr s))
  | .null => .null
  | .undefined => .undefined
  | .bool b => .bool b
  | .arr items => .arr items
  | .obj entries => .obj entries

mutual

/-- `convertAllMonetaryFields` (src/currency.ts): null/undefined returned
as-is; arrays mapped recursively; in an object, an entry whose key is in
`MONETARY_FIELDS` is converted through `groszeToPLN` when its value is a
number or a string and kept otherwise, and any other entry recurses into its
value; remaining scalars returned as-is.  (The Lean embedding is pure, so the
input is never mutated by construction.) -/
def convertAllMonetaryFields : JVal → JVal
  | .null => .null
  | .undefined => .undefined
  | .arr items => .arr (convertAllMonetaryFieldsList items)
  | .obj entries => .obj (convertAllMonetaryFieldsEntries entries)
  | v => v

/-- `data.map(item => convertAllMonetaryFields(item))`. -/
def convertAllMonetaryFieldsList : List JVal → List JVal
  | [] => []
  | v :: vs => convertAllMonetaryFields v :: convertAllMonetaryFieldsList vs

/-- The entry loop of `convertAllMonetaryFields` over `Object.entries`. -/
def convertAllMonetaryFieldsEntries : List (String × JVal) → List (String × JVal)
  | [] => []
  | (k, v) :: rest =>
    (if MONETARY_FIELDS.contains k then (k, convertMonetaryValue v)
     else (k, convertAllMonetaryFields v)) :: convertAllMonetaryFieldsEntries rest

end

mutual

/-- No object entry anywhere inside the value has a recognized monetary key. -/
def monetaryFree : JVal → Bool
  | .arr items => monetaryFreeList items
  | .obj entries => monetaryFreeEntries entries
  | _ => true

def monetaryFreeList : List JVal → Bool
  | [] => true
  | v :: vs => monetaryFree v && monetaryFreeList vs

def monetaryFreeEntries : List (String × JVal) → Bool
  | [] => true
  | (k, v) :: rest =>
    !MONETARY_FIELDS.contains k && monetaryFree v && monetaryFreeEntries rest

end

/-- `ValidationError` (src/validation.ts): an `McpError` with code
`InvalidParams` carrying the offending field; `message` here is the raw
message passed to the constructor, `fullMessage` the composed `McpError`
message. -/
structure ValidationError where
  field : String
  message : String
deriving DecidableEq

/-- The message the `ValidationError` constructor hands to `McpError`. -/
def ValidationError.fullMessage (e : ValidationError) : String :=
  "Validation error for '" ++ e.field ++ "': " ++ e.message

/-- `value.trim().length === 0`: every character is whitespace. -/
def jsTrimEmpty (s : String) : Bool := s.toList.all isJsWhitespace

/-- `validateRequiredString`: a string with a non-empty trim. -/
def validateRequiredString (value : JVal) (fieldName : String) :
    Except ValidationError Unit :=
  match value with
  | .str s =>
    if jsTrimEmpty s then .error ⟨fieldName, "must be a non-empty string"⟩
    else .ok ()
  | _ => .error ⟨fieldName, "must be a non-empty string"⟩

/-- `value <= 0` for a JS number (false on NaN). -/
def jsLeZero : JsNum → Bool
  | .nan => false
  | .inf p => !p
  | .num q => decide (q ≤ 0)

/-- `value < 0` for a JS number (false on NaN). -/
def jsLtZero : JsNum → Bool
  | .nan => false
  | .inf p => !p
  | .num q => decide (q < 0)

/-- `Number.isFinite`. -/
def jsIsFinite : JsNum → Bool
  | .num _ => true
  | _ => false

/-- `validatePositiveNumber`: a finite number strictly above zero. -/
def validatePositiveNumber (value : JVal) (fieldName : String) :
    Except ValidationError Unit :=
  match value with
  | .num x =>
    if jsLeZero x || !jsIsFinite x then
      .error ⟨fieldName, "must be a positive number"⟩
    else .ok ()
  | _ => .error ⟨fieldName, "must be a positive number"⟩

/-- `validateNonNegativeNumber`: a finite number at least zero. -/
def validateNonNegativeNumber (value : JVal) (fieldName : String) :
    Except ValidationError Unit :=
  match value with
  | .num x =>
    if jsLtZero x || !jsIsFinite x then
      .error ⟨fieldName, "must be a non-negative number"⟩
    else .ok ()
  | _ => .error ⟨fieldName, "must be a non-negative number"⟩

/-- The regex `/^\d{4}-\d{2}-\d{2}$/`. -/
def matchesDatePattern (s : String) : Bool :=
  match s.toList with
  | [y1, y2, y3, y4, h1, m1, m2, h2, d1, d2] =>
    isDigit y1 && isDigit y2 && isDigit y3 && isDigit y4 && h1 = '-' &&
      isDigit m1 && isDigit m2 && h2 = '-' && isDigit d1 && isDigit d2
  | _ => false

/-- `value.split("-")` at the character-list level. -/
def splitOnDash : List Char → List (List Char)
  | [] => [[]]
  | c :: rest =>
    if c = '-' then [] :: splitOnDash rest
    else
      match splitOnDash rest with
      | g :: tl => (c :: g) :: tl
      | [] => [[c]]

/-- `Number(s)` on the all-digit strings the date pattern admits. -/
def numberOfDigitChars (g : List Char) : ℕ := natOfDigits (g.map digitVal)

/-- A proleptic-Gregorian leap year (what `Date.UTC` uses). -/
def isLeapYear (y : ℤ) : Bool :=
  (y % 4 = 0 && y % 100 ≠ 0) || y % 400 = 0

/-- Days in month `m` (1-12) of year `y`. -/
def daysInMonth (y : ℤ) (m : ℕ) : ℕ :=
  if m = 2 then (if isLeapYear y then 29 else 28)
  else if m = 4 ∨ m = 6 ∨ m = 9 ∨ m = 11 then 30
  else 31

/-- Month-overflow normalization of ECMAScript `MakeDay`: the year after
folding the zero-based month index (Euclidean division, `/` on `ℤ`). -/
def normYear (y : ℤ) (m : ℕ) : ℤ := y + ((m : ℤ) - 1) / 12

/-- The folded one-based month, in `[1, 12]`. -/
def normMonth (m : ℕ) : ℕ := (((m : ℤ) - 1) % 12).toNat + 1

/-- Day-overflow normalization: while the day exceeds the month's length,
subtract it and advance one month.  Two digits bound the day by 99, so the
fuel of 8 is never exhausted. -/
def rollForward : ℕ → ℤ → ℕ → ℕ → ℤ × ℕ × ℕ
  | 0, y, m, d => (y, m, d)
  | fuel + 1, y, m, d =>
    if d > daysInMonth y m then
      let d' := d - daysInMonth y m
      if m = 12 then rollForward fuel (y + 1) 1 d'
      else rollForward fuel y (m + 1) d'
    else (y, m, d)

/-- The UTC calendar components `new Date(y-m-d)` reports, under rollover
(`Date.UTC`) semantics: `(getUTCFullYear, getUTCMonth + 1, getUTCDate)`.
Engines that instead reject out-of-range ISO dates outright make the
round-trip check below redundant: acceptance is identical either way, and so
is the reported error, since both paths throw "is not a valid date". -/
def dateGetUTCComponents (y : ℤ) (m d : ℕ) : ℤ × ℕ × ℕ :=
  if d = 0 then
    if normMonth m = 1 then
      (normYear y m - 1, 12, daysInMonth (normYear y m - 1) 12)
    else
      (normYear y m, normMonth m - 1, daysInMonth (normYear y m) (normMonth m - 1))
  else rollForward 8 (normYear y m) (normMonth m) d

/-- `validateDateString`: a string matching `YYYY-MM-DD` whose parsed
components round-trip through the `Date` object's UTC getters. -/
def validateDateString (value : JVal) (fieldName : String) :
    Except ValidationError Unit :=
  match value with
  | .str s =>
    if !matchesDatePattern s then
      .error ⟨fieldName, "must be in YYYY-MM-DD format"⟩
    else
      match (splitOnDash s.toList).map numberOfDigitChars with
      | [y, m, d] =>
        if dateGetUTCComponents (y : ℤ) m d = ((y : ℤ), m, d) then .ok ()
        else .error ⟨fieldName, "is not a valid date"⟩
      | _ => .error ⟨fieldName, "is not a valid date"⟩
  | _ => .error ⟨fieldName, "must be a string"⟩

/-- `validateEnum`: a string among the allowed values. -/
def validateEnum (value : JVal) (fieldName : String)
    (allowedValues : List String) : Except ValidationError Unit :=
  match value with
  | .str s =>
    if allowedValues.contains s then .ok ()
    else
      .error ⟨fieldName,
        "must be one of: " ++ String.intercalate ", " allowedValues⟩
  | _ => .error ⟨fieldName, "must be a string"⟩

/-- The item loop of `validateArray`: the first item failure is rethrown with
the qualified path `fieldName[index].innerField` (the `message.replace` in the
source strips exactly the composed prefix, recovering the raw message). -/
def validateArrayItems (fieldName : String)
    (itemValidator : JVal → ℕ → Except ValidationError Unit) :
    ℕ → List JVal → Except ValidationError Unit
  | _, [] => .ok ()
  | index, item :: rest =>
    match itemValidator item index with
    | .ok _ => validateArrayItems fieldName itemValidator (index + 1) rest
    | .error e =>
      .error ⟨fieldName ++ "[" ++ toString index ++ "]." ++ e.field, e.message⟩

/-- `validateArray`: a non-empty array whose items all pass the optional item
validator. -/
def validateArray (value : JVal) (fieldName : String)
    (itemValidator : Option (JVal → ℕ → Except ValidationError Unit)) :
    Except ValidationError Unit :=
  match value with
  | .arr items =>
    if items.length = 0 then .error ⟨fieldName, "must not be empty"⟩
    else
      match itemValidator with
      | some v => validateArrayItems fieldName v 0 items
      | none => .ok ()
  | _ => .error ⟨fieldName, "must be an array"⟩

/-- `x === undefined`. -/
def isUndefined : JVal → Bool
  | .undefined => true
  | _ => false

/-- `typeof x === "string" || typeof x === "number"`. -/
def isStringOrNumber : JVal → Bool
  | .str _ => true
  | .num _ => true
  | _ => false

/-- Statement sequencing in a throwing function: the semicolon (a thrown
error aborts what follows). -/
def seqE {e : Type} (a b : Except e Unit) : Except e Unit :=
  match a with
  | .error t => .error t
  | .ok _ => b

/-- `validateInvoiceService` (src/validation.ts): a truthy object with a
non-empty `name`, a string-or-number `tax_symbol`, non-negative optional
price fields, a positive optional `quantity`, and at least one of the three
price fields present; the all-prices-missing failure is attributed to the
field name `services`. -/
def validateInvoiceService (value : JVal) (index : ℕ) :
    Except ValidationError Unit :=
  seqE (if !jsTruthy value || !isObjectType value then
      .error ⟨"services[" ++ toString index ++ "]", "must be an object"⟩
    else .ok ())
  (seqE (validateRequiredString (jsGet value "name") "name")
  (seqE (if isUndefined (jsGet value "tax_symbol") ||
        !isStringOrNumber (jsGet value "tax_symbol") then
      .error ⟨"tax_symbol", "is required and must be a string or number"⟩
    else .ok ())
  (seqE (if !isUndefined (jsGet value "net_price") then
      validateNonNegativeNumber (jsGet value "net_price") "net_price"
    else .ok ())
  (seqE (if !isUndefined (jsGet value "unit_net_price") then
      validateNonNegativeNumber (jsGet value "unit_net_price") "unit_net_price"
    else .ok ())
  (seqE (if !isUndefined (jsGet value "gross_price") then
      validateNonNegativeNumber (jsGet value "gross_price") "gross_price"
    else .ok ())
  (seqE (if !isUndefined (jsGet value "quantity") then
      validatePositiveNumber (jsGet value "quantity") "quantity"
    else .ok ())
  (if isUndefined (jsGet value "net_price") &&
      isUndefined (jsGet value "unit_net_price") &&
      isUndefined (jsGet value "gross_price") then
    .error ⟨"services",
      "each service must have at least one of: net_price, unit_net_price, or gross_price"⟩
  else .ok ())))))))

/-- `params.limit > 100` after `limit` was asserted to be a number. -/
def jsGt100 : JVal → Bool
  | .num (.num q) => decide (q > 100)
  | .num (.inf p) => p
  | _ => false

/-- `validatePaginationParams` (src/validation.ts): `offset`, if present,
must be a finite non-negative number; `limit`, if present, must be a finite
positive number and at most 100. -/
def validatePaginationParams (offset limit : JVal) :
    Except ValidationError Unit := do
  if !isUndefined offset then
    validateNonNegativeNumber offset "offset"
  if !isUndefined limit then
    validatePositiveNumber limit "limit"
    if jsGt100 limit then
      throw ⟨"limit", "must not exceed 100"⟩

/-- A value thrown by a handler: a `ValidationError` (`McpError` subclass) or
a plain `new Error(message)`. -/
inductive Thrown where
  | vErr (e : ValidationError) : Thrown
  | genErr (msg : String) : Thrown
deriving DecidableEq

/-- Whether a throw is a `ValidationError` (the result carries a field path
only in that case). -/
def thrownIsValidationError : Except Thrown Unit → Bool
  | .error (.vErr _) => true
  | _ => false

/-- Runs a validator; its `ValidationError` propagates as a `Thrown.vErr`. -/
def liftV : Except ValidationError Unit → Except Thrown Unit
  | .ok _ => .ok ()
  | .error e => .error (.vErr e)

/-- `PAYMENT_METHODS` (invoice handlers). -/
def PAYMENT_METHODS : List String :=
  ["cash", "transfer", "card", "barter", "check", "bill_of_sale", "delivery",
   "compensation", "accredited", "paypal", "payu", "tpay", "przelewy24",
   "dotpay", "other"]

/-- `INVOICE_STATUSES` (invoice handlers). -/
def INVOICE_STATUSES : List String := ["draft", "paid", "printed", "sent"]

/-- `x === "lit"` for a string literal. -/
def jsEqStr : JVal → String → Bool
  | .str s, t => s = t
  | _, _ => false

/-- The argument-validation phase of `createInvoice` (invoice handlers), one
`seqE` per source statement, in source order; each failed check throws
before the API call is reached. -/
def createInvoiceValidate (args : JVal) : Except Thrown Unit :=
  seqE (liftV (validateRequiredString (jsGet args "client_company_name")
    "client_company_name"))
  (seqE (liftV (validateRequiredString (jsGet args "payment_method")
    "payment_method"))
  (seqE (liftV (validateEnum (jsGet args "payment_method") "payment_method"
    PAYMENT_METHODS))
  (seqE (if !jsTruthy (jsGet args "services") then
      .error (.genErr "services is required")
    else .ok ())
  (seqE (liftV (validateArray (jsGet args "services") "services"
    (some validateInvoiceService)))
  (seqE (if !isUndefined (jsGet args "status") then
      liftV (validateEnum (jsGet args "status") "status" INVOICE_STATUSES)
    else .ok ())
  (seqE (if jsEqStr (jsGet args "status") "paid" then
      seqE (if !jsTruthy (jsGet args "paid_date") then
          .error (.genErr "paid_date is required when status is 'paid'")
        else .ok ())
      (liftV (validateDateString (jsGet args "paid_date") "paid_date"))
    else .ok ())
  (seqE (if !isUndefined (jsGet args "invoice_date") then
      liftV (validateDateString (jsGet args "invoice_date") "invoice_date")
    else .ok ())
  (seqE (if !isUndefined (jsGet args "sale_date") then
      liftV (validateDateString (jsGet args "sale_date") "sale_date")
    else .ok ())
  (if !isUndefined (jsGet args "payment_date") then
      liftV (validateDateString (jsGet args "payment_date") "payment_date")
    else .ok ())))))))))

/-- An outward HTTP request of the API client. -/
structure NetRequest where
  method : String
  url : String
  body : JVal

/-- The network requests `createInvoice` issues for given arguments: none
when validation throws, otherwise the single POST of
`{ invoice: params }` to `/async/invoices.json`. -/
def createInvoiceRequests (args : JVal) : List NetRequest :=
  match createInvoiceValidate args with
  | .error _ => []
  | .ok _ => [⟨"POST", "/async/invoices.json", .obj [("invoice", args)]⟩]

/-- One `content` entry of a tool response. -/
structure ContentItem where
  type : String
  text : String

/-- The MCP `ToolResponse` shape the handlers build. -/
structure ToolResponse where
  content : List ContentItem

/-- `createJsonResponse` of the invoice handlers: monetary conversion, then
serialization (`stringify` stands for the ambient `JSON.stringify(·, null, 2)`). -/
def invoiceCreateJsonResponse (stringify : JVal → String) (data : JVal) :
    ToolResponse :=
  ⟨[⟨"text", stringify (convertAllMonetaryFields data)⟩]⟩

/-- `createJsonResponse` of the client handlers: monetary conversion, then
serialization. -/
def clientCreateJsonResponse (stringify : JVal → String) (data : JVal) :
    ToolResponse :=
  ⟨[⟨"text", stringify (convertAllMonetaryFields data)⟩]⟩

/-- `createJsonResponse` of the reference-data handlers: monetary conversion,
then serialization. -/
def referenceCreateJsonResponse (stringify : JVal → String) (data : JVal) :
    ToolResponse :=
  ⟨[⟨"text", stringify (convertAllMonetaryFields data)⟩]⟩

/-- `createJsonResponse` of the product handlers: serialization only. -/
def productCreateJsonResponse (stringify : JVal → String) (data : JVal) :
    ToolResponse :=
  ⟨[⟨"text", stringify data⟩]⟩

/-- `createJsonResponse` of the cost handlers: serialization only. -/
def costCreateJsonResponse (stringify : JVal → String) (data : JVal) :
    ToolResponse :=
  ⟨[⟨"text", stringify data⟩]⟩

/-- JS number-to-string: exact integers print as decimal integers;
non-integral rationals print as the rational (JS shortest-double formatting
is not modelled; no claim depends on it). -/
def jsNumToString : JsNum → String
  | .nan => "NaN"
  | .inf p => if p then "Infinity" else "-Infinity"
  | .num q => if q.den = 1 then toString q.num else toString q

mutual

/-- The element conversion of `Array.prototype.join`: null and undefined
become empty, others their JS string conversion (`[object Object]` for plain
objects). -/
def joinElemString : JVal → String
  | .null => ""
  | .undefined => ""
  | .bool b => if b then "true" else "false"
  | .num x => jsNumToString x
  | .str s => s
  | .arr items => joinList items
  | .obj _ => "[object Object]"

/-- Nested arrays stringify as their own comma join. -/
def joinList : List JVal → String
  | [] => ""
  | [v] => joinElemString v
  | v :: rest => joinElemString v ++ "," ++ joinList rest

end

/-- The `error.response` of an axios error: HTTP status and decoded body. -/
structure AxiosResponse where
  status : ℕ
  data : JVal

/-- An axios error: the optional response and the base `Error` message. -/
structure AxiosError where
  response : Option AxiosResponse
  message : String

/-- `error.message || "Network error occurred"`. -/
def networkErrorMessage (msg : String) : String :=
  if msg = "" then "Network error occurred" else msg

/-- The response-body probe of `extractErrorMessage`: the first of
`data.message`, `data.error`, `data.errors` (a string), or a non-empty
`data.errors` array joined with `", "`; only when `data` is a truthy value
of object type. -/
def extractFromData (data : JVal) : Option String :=
  if jsTruthy data && isObjectType data then
    match jsGet data "message" with
    | .str s => some s
    | _ =>
      match jsGet data "error" with
      | .str s => some s
      | _ =>
        match jsGet data "errors" with
        | .str s => some s
        | .arr items =>
          if items.length > 0 then
            some (String.intercalate ", " (items.map joinElemString))
          else none
        | _ => none
  else none

/-- The status-based fallback messages of `extractErrorMessage`. -/
def statusFallbackMessage (status : ℕ) : String :=
  if status = 400 then "Bad request: Invalid parameters"
  else if status = 401 then "Unauthorized: Invalid or missing API key"
  else if status = 403 then "Forbidden: Insufficient permissions"
  else if status = 404 then "Not found: Resource does not exist"
  else if status = 422 then "Unprocessable entity: Validation failed"
  else if status = 429 then "Too many requests: Rate limit exceeded"
  else if status = 500 then "Internal server error"
  else if status = 503 then "Service unavailable: API is temporarily down"
  else "API error: " ++ toString status

/-- `extractErrorMessage` (src/api-client.ts): without a (truthy) status the
base message or the network fallback; otherwise the first message found in
the body, else the status fallback. -/
def extractErrorMessage (error : AxiosError) : String :=
  match error.response with
  | none => networkErrorMessage error.message
  | some resp =>
    if resp.status = 0 then networkErrorMessage error.message
    else
      match extractFromData resp.data with
      | some m => m
      | none => statusFallbackMessage resp.status

/-- The MCP error codes the server uses. -/
inductive ErrorCode where
  | InvalidParams : ErrorCode
  | InvalidRequest : ErrorCode
  | InternalError : ErrorCode
deriving DecidableEq

/-- An `McpError`: code and message. -/
structure McpErr where
  code : ErrorCode
  message : String

/-- The error values `handleApiError` distinguishes. -/
inductive JsError where
  | mcp (e : McpErr) : JsError
  | axios (e : AxiosError) : JsError
  | infakt (statusCode : ℕ) (msg : String) : JsError
  | other (msg : String) : JsError

/-- `${status ?? "unknown"}`. -/
def statusDisplay : Option ℕ → String
  | some s => toString s
  | none => "unknown"

/-- `handleApiError` (src/api-client.ts), with the thrown `McpError` as the
result; `stringify` stands for the ambient `JSON.stringify` used for the
`Details:` suffix.  An axios error maps 400/422 to `InvalidParams`,
401/403/404 to `InvalidRequest`, everything else to `InternalError`. -/
def handleApiError (stringify : JVal → String) : JsError → McpErr
  | .mcp e => e
  | .axios e =>
    let status : Option ℕ := e.response.map (fun r => r.status)
    let dataVal : JVal :=
      match e.response with
      | some r => r.data
      | none => .undefined
    let message := extractErrorMessage e
    let errorCode : ErrorCode :=
      if status = some 400 ∨ status = some 422 then .InvalidParams
      else if status = some 401 ∨ status = some 403 then .InvalidRequest
      else if status = some 404 then .InvalidRequest
      else .InternalError
    ⟨errorCode,
      "inFakt API error (" ++ statusDisplay status ++ "): " ++ message ++
        (if jsTruthy dataVal then "\nDetails: " ++ stringify dataVal else "")⟩
  | .infakt statusCode msg =>
    ⟨.InternalError,
      "inFakt API error (" ++ toString statusCode ++ "): " ++ msg⟩
  | .other msg => ⟨.InternalError, "Unexpected error: " ++ msg⟩

/-- `API_ENDPOINTS.PRODUCTION` (src/config.ts). -/
def API_ENDPOINTS_PRODUCTION : String := "https://api.infakt.pl/api/v3"

/-- `API_ENDPOINTS.SANDBOX` (src/config.ts). -/
def API_ENDPOINTS_SANDBOX : String := "https://api.sandbox-infakt.pl/api/v3"

/-- `process.env`: each variable unset or a string. -/
def Env : Type := String → Option String

/-- `parseBooleanEnvVar` (src/config.ts): default when unset, else
`value === "true" || value === "1"`. -/
def parseBooleanEnvVar (env : Env) (name : String) (defaultValue : Bool) :
    Bool :=
  match env name with
  | none => defaultValue
  | some value => value = "true" || value = "1"

/-- `ServerConfig`. -/
structure ServerConfig where
  apiKey : String
  baseUrl : String
  useSandbox : Bool
deriving DecidableEq

/-- `loadConfig`'s outcome: the configuration or a thrown
`ConfigurationError`. -/
inductive ConfigResult where
  | ok (c : ServerConfig) : ConfigResult
  | configError (msg : String) : ConfigResult
deriving DecidableEq

/-- `loadConfig` (src/config.ts): require a plausible API key, read the
sandbox flag, pick the base URL (sandbox endpoint when the flag is set,
otherwise the `INFAKT_BASE_URL` override or the production endpoint), and
validate the URL.  `urlValid` stands for the ambient `new URL` check; an
unset or empty `INFAKT_API_KEY` fails `requireEnvVar`'s `!value` test. -/
def loadConfig (urlValid : String → Bool) (env : Env) : ConfigResult :=
  match env "INFAKT_API_KEY" with
  | none => .configError "Missing required environment variable: INFAKT_API_KEY"
  | some apiKey =>
    if apiKey = "" then
      .configError "Missing required environment variable: INFAKT_API_KEY"
    else if apiKey.length < 10 then
      .configError "Invalid API key format: key appears to be too short"
    else
      let useSandbox := parseBooleanEnvVar env "INFAKT_USE_SANDBOX" false
      let customBaseUrl := env "INFAKT_BASE_URL"
      let baseUrl :=
        if useSandbox then API_ENDPOINTS_SANDBOX
        else customBaseUrl.getD API_ENDPOINTS_PRODUCTION
      if urlValid baseUrl then .ok ⟨apiKey, baseUrl, useSandbox⟩
      else .configError ("Invalid URL format: " ++ baseUrl)

/-- The decoded 422 body of claim C9. -/
def c9Body : JVal :=
  .obj [("errors", .arr [.str "name is blank", .str "tax_symbol invalid"])]

/-- The axios failure of claim C9: HTTP 422 with the two-error body. -/
def c9AxiosError : AxiosError := ⟨some ⟨422, c9Body⟩, ""⟩

/-- The concrete environment of the C10 witness: a valid API key, the
sandbox flag set, and a base-URL override that must lose. -/
def c10Env : Env := fun name =>
  if name = "INFAKT_API_KEY" then some "0123456789"
  else if name = "INFAKT_USE_SANDBOX" then some "true"
  else if name = "INFAKT_BASE_URL" then some "https://example.com/api"
  else none

/-- The arguments of the C5 counterexample: well-formed strings but no
`services` key at all. -/
def c5Args : JVal :=
  .obj [("client_company_name", .str "Acme"), ("payment_method", .str "transfer")]

/-- The arguments of the C5 witness: valid except a boolean `tax_symbol` in
the second line item. -/
def c5WitnessArgs : JVal :=
  .obj [("client_company_name", .str "Acme"),
    ("payment_method", .str "transfer"),
    ("services", .arr [
      .obj [("name", .str "A"), ("tax_symbol", .str "23"),
        ("gross_price", .num (.num 100))],
      .obj [("name", .str "B"), ("tax_symbol", .bool true),
        ("gross_price", .num (.num 100))]])]

/-- The all-prices-missing message of `validateInvoiceService`. -/
def servicePriceMsg : String :=
  "each service must have at least one of: net_price, unit_net_price, or gross_price"

/-- A line item with a valid name and tax symbol but none of the three price
fields. -/
def c6NoPriceItem : JVal :=
  .obj [("name", .str "Consulting"), ("tax_symbol", .str "23")]

/-- A line item with only `gross_price` set and a string tax symbol. -/
def c6GrossItem (q : ℚ) : JVal :=
  .obj [("name", .str "Consulting"), ("tax_symbol", .str "23"),
    ("gross_price", .num (.num q))]

/-- A line item with only `gross_price` set and a numeric tax symbol. -/
def c6GrossItemNumTax (q : ℚ) : JVal :=
  .obj [("name", .str "Consulting"), ("tax_symbol", .num (.num 23)),
    ("gross_price", .num (.num q))]

/-- The calendar components a `YYYY-MM-DD` string denotes, through the same
split and digit reading the validator performs. -/
def dateComponents (s : String) : ℕ × ℕ × ℕ :=
  match (splitOnDash s.toList).map numberOfDigitChars with
  | [y, m, d] => (y, m, d)
  | _ => (0, 0, 0)

/-- Calendar validity of year/month/day components. -/
def calendarValid (y : ℤ) (m d : ℕ) : Prop :=
  1 ≤ m ∧ m ≤ 12 ∧ 1 ≤ d ∧ d ≤ daysInMonth y m

lemma floor_half : ⌊(1 : ℚ) / 2⌋ = 0 := by
  rw [Int.floor_eq_zero_iff]
  constructor <;> norm_num

lemma jsRound_int (z : ℤ) : jsRound (.num (z : ℚ)) = .num (z : ℚ) := by
  simp only [jsRound]
  rw [add_comm, Int.floor_add_int, floor_half, zero_add]

/-- C1: for every non-negative integer amount of grosze, converting to PLN
with `groszeToPLN` and back with `plnToGrosze` is the identity:
`groszeToPLN` rounds, then divides by 100; `plnToGrosze` multiplies by 100,
then rounds; on an exact integer both roundings are trivial and the scalings
cancel. -/
theorem grosze_pln_roundtrip_exact :
    ∀ g : ℕ, plnToGrosze (groszeToPLN (.ofNum (.num (g : ℚ)))) = .num (g : ℚ) := by
  intro g
  have hcast : ((g : ℚ)) = (((g : ℤ) : ℚ)) := by push_cast; ring
  rw [hcast]
  calc plnToGrosze (groszeToPLN (.ofNum (.num ((g : ℤ) : ℚ))))
      = jsRound (jsMulC (jsDivC (jsRound (.num ((g : ℤ) : ℚ))) 100) 100) := rfl
    _ = jsRound (jsMulC (jsDivC (.num ((g : ℤ) : ℚ)) 100) 100) := by
        rw [jsRound_int]
    _ = jsRound (.num (((g : ℤ) : ℚ) / 100 * 100)) := rfl
    _ = jsRound (.num ((g : ℤ) : ℚ)) := by
        rw [div_mul_cancel₀ _ (by norm_num : (100 : ℚ) ≠ 0)]
    _ = .num ((g : ℤ) : ℚ) := jsRound_int g

mutual

theorem monetaryFree_convert_id :
    ∀ v : JVal, monetaryFree v = true → convertAllMonetaryFields v = v
  | .null, _ => rfl
  | .undefined, _ => rfl
  | .bool _, _ => rfl
  | .num _, _ => rfl
  | .str _, _ => rfl
  | .arr items, h => congrArg JVal.arr (monetaryFreeList_convert_id items h)
  | .obj entries, h => congrArg JVal.obj (monetaryFreeEntries_convert_id entries h)

theorem monetaryFreeList_convert_id :
    ∀ vs : List JVal, monetaryFreeList vs = true →
      convertAllMonetaryFieldsList vs = vs
  | [], _ => rfl
  | v :: vs, h => by
    rw [monetaryFreeList, Bool.and_eq_true] at h
    rw [convertAllMonetaryFieldsList, monetaryFree_convert_id v h.1,
      monetaryFreeList_convert_id vs h.2]

theorem monetaryFreeEntries_convert_id :
    ∀ es : List (String × JVal), monetaryFreeEntries es = true →
      convertAllMonetaryFieldsEntries es = es
  | [], _ => rfl
  | (k, v) :: rest, h => by
    rw [monetaryFreeEntries, Bool.and_eq_true, Bool.and_eq_true] at h
    obtain ⟨⟨hk, hv⟩, hrest⟩ := h
    have hk' : MONETARY_FIELDS.contains k = false := by
      simpa using hk
    rw [convertAllMonetaryFieldsEntries, hk']
    simp only [Bool.false_eq_true, if_false]
    rw [monetaryFree_convert_id v hv, monetaryFreeEntries_convert_id rest hrest]

end

lemma convertList_eq_map :
    ∀ vs : List JVal,
      convertAllMonetaryFieldsList vs = vs.map convertAllMonetaryFields := by
  intro vs
  induction vs with
  | nil => rfl
  | cons v vs ih => rw [convertAllMonetaryFieldsList, ih, List.map_cons]

lemma convertEntries_keys :
    ∀ es : List (String × JVal),
      (convertAllMonetaryFieldsEntries es).map Prod.fst = es.map Prod.fst := by
  intro es
  induction es with
  | nil => rfl
  | cons e rest ih =>
    obtain ⟨k, v⟩ := e
    rw [convertAllMonetaryFieldsEntries]
    simp only [List.map_cons, ih]
    congr 1
    split <;> rfl

lemma convertEntries_unrecognized (k : String) (v : JVal)
    (rest : List (String × JVal)) (hk : MONETARY_FIELDS.contains k = false) :
    convertAllMonetaryFieldsEntries ((k, v) :: rest) =
      (k, convertAllMonetaryFields v) :: convertAllMonetaryFieldsEntries rest := by
  rw [convertAllMonetaryFieldsEntries, hk]
  simp

/-- C2: `convertAllMonetaryFields` is pure (the embedding returns a fresh
value, the argument is untouched) and only rewrites object entries whose key
is a recognized monetary field: scalars, null and undefined pass through
unchanged, arrays map the conversion over their items, objects keep their
key structure, an entry with an unrecognized key merely recurses into its
value, and a value containing no recognized key anywhere is returned
exactly as it came, at any nesting depth. -/
theorem convertAllMonetaryFields_frame :
    convertAllMonetaryFields .null = .null ∧
    convertAllMonetaryFields .undefined = .undefined ∧
    (∀ b, convertAllMonetaryFields (.bool b) = .bool b) ∧
    (∀ x, convertAllMonetaryFields (.num x) = .num x) ∧
    (∀ s, convertAllMonetaryFields (.str s) = .str s) ∧
    (∀ items, convertAllMonetaryFields (.arr items) =
      .arr (items.map convertAllMonetaryFields)) ∧
    (∀ es, (convertAllMonetaryFieldsEntries es).map Prod.fst =
      es.map Prod.fst) ∧
    (∀ k v rest, MONETARY_FIELDS.contains k = false →
      convertAllMonetaryFieldsEntries ((k, v) :: rest) =
        (k, convertAllMonetaryFields v) :: convertAllMonetaryFieldsEntries rest) ∧
    (∀ v, monetaryFree v = true → convertAllMonetaryFields v = v) := by
  refine ⟨rfl, rfl, fun _ => rfl, fun _ => rfl, fun _ => rfl, ?_,
    convertEntries_keys, convertEntries_unrecognized, monetaryFree_convert_id⟩
  intro items
  rw [convertAllMonetaryFields, convertList_eq_map]

/-- Witness for C2 at concrete inputs: an entry under the unrecognized key
`description` recurses unchanged, and a nested object without monetary keys
is returned exactly. -/
theorem convertAllMonetaryFields_frame_witness :
    convertAllMonetaryFieldsEntries [("description", JVal.str "x")] =
      [("description", convertAllMonetaryFields (JVal.str "x"))] ∧
    convertAllMonetaryFields
        (.obj [("note", .arr [.obj [("label", .str "n")]])]) =
      .obj [("note", .arr [.obj [("label", .str "n")]])] := by
  constructor
  · exact convertAllMonetaryFields_frame.2.2.2.2.2.2.2.1 "description"
      (JVal.str "x") [] (by decide)
  · exact convertAllMonetaryFields_frame.2.2.2.2.2.2.2.2
      (.obj [("note", .arr [.obj [("label", .str "n")]])]) (by decide)

/-- C3 counterexample: a recognized monetary key holding the non-numeric
string "N/A" is not passed through: the code converts every string, and
`parseFloat("N/A")` is NaN, so the field becomes NaN. -/
theorem convert_monetary_nonnumeric_string_cex :
    convertAllMonetaryFields (.obj [("price", .str "N/A")]) =
      .obj [("price", .num .nan)] ∧
    JVal.num .nan ≠ JVal.str "N/A" := by
  exact ⟨rfl, fun h => JVal.noConfusion h⟩

/-- C3 (amended): under a recognized monetary key, values that are neither
numbers nor strings (null, booleans, undefined, nested objects and arrays)
pass through without conversion, while every number and every string —
numeric-looking or not — is put through `groszeToPLN`; a string that
`parseFloat` cannot read (such as "N/A") therefore becomes NaN rather than
passing through. -/
theorem convert_monetary_field_value_handling :
    ∀ k rest, MONETARY_FIELDS.contains k = true →
      (∀ v, isStringOrNumber v = false →
        convertAllMonetaryFieldsEntries ((k, v) :: rest) =
          (k, v) :: convertAllMonetaryFieldsEntries rest) ∧
      (∀ x, convertAllMonetaryFieldsEntries ((k, .num x) :: rest) =
        (k, .num (groszeToPLN (.ofNum x))) :: convertAllMonetaryFieldsEntries rest) ∧
      (∀ s, convertAllMonetaryFieldsEntries ((k, .str s) :: rest) =
        (k, .num (groszeToPLN (.ofStr s))) :: convertAllMonetaryFieldsEntries rest) ∧
      (∀ s, parseFloat s = .nan → groszeToPLN (.ofStr s) = .nan) ∧
      parseFloat "N/A" = .nan := by
  intro k rest hk
  refine ⟨?_, ?_, ?_, ?_, rfl⟩
  · intro v hv
    rw [convertAllMonetaryFieldsEntries, hk]
    cases v <;> simp_all [convertMonetaryValue, isStringOrNumber]
  · intro x
    rw [convertAllMonetaryFieldsEntries, hk]
    simp [convertMonetaryValue]
  · intro s
    rw [convertAllMonetaryFieldsEntries, hk]
    simp [convertMonetaryValue]
  · intro s hs
    show jsDivC (jsRound (parseFloat s)) 100 = .nan
    rw [hs]
    rfl

/-- Witness for C3 at concrete inputs: under the recognized key `amount`, a
boolean passes through, while the non-numeric string "N/A" converts to NaN. -/
theorem convert_monetary_field_value_handling_witness :
    convertAllMonetaryFieldsEntries [("amount", JVal.bool true)] =
      [("amount", JVal.bool true)] ∧
    convertAllMonetaryFieldsEntries [("amount", JVal.str "N/A")] =
      [("amount", JVal.num (groszeToPLN (.ofStr "N/A")))] ∧
    groszeToPLN (.ofStr "N/A") = .nan := by
  have h := convert_monetary_field_value_handling "amount" [] (by decide)
  exact ⟨h.1 (JVal.bool true) (by decide), h.2.2.1 "N/A",
    h.2.2.2.1 "N/A" h.2.2.2.2⟩

lemma groszeToPLN_natCast (n : ℕ) :
    groszeToPLN (.ofNum (.num (n : ℚ))) = .num ((n : ℚ) / 100) := by
  have hcast : ((n : ℚ)) = (((n : ℤ) : ℚ)) := by push_cast; ring
  show jsDivC (jsRound (.num (n : ℚ))) 100 = .num ((n : ℚ) / 100)
  rw [hcast, jsRound_int]
  rfl

/-- C4: the invoice, client and reference-data handlers serialize the remote
result only after `convertAllMonetaryFields`, while the product and cost
handlers serialize it untouched; on a monetary payload the conversion really
rescales (12345 grosze becomes 123.45 PLN). -/
theorem handlers_monetary_conversion_wiring :
    ∀ (stringify : JVal → String) (data : JVal),
      invoiceCreateJsonResponse stringify data =
        ⟨[⟨"text", stringify (convertAllMonetaryFields data)⟩]⟩ ∧
      clientCreateJsonResponse stringify data =
        ⟨[⟨"text", stringify (convertAllMonetaryFields data)⟩]⟩ ∧
      referenceCreateJsonResponse stringify data =
        ⟨[⟨"text", stringify (convertAllMonetaryFields data)⟩]⟩ ∧
      productCreateJsonResponse stringify data = ⟨[⟨"text", stringify data⟩]⟩ ∧
      costCreateJsonResponse stringify data = ⟨[⟨"text", stringify data⟩]⟩ ∧
      invoiceCreateJsonResponse stringify
          (.obj [("net_price", .num (.num 12345))]) =
        ⟨[⟨"text",
          stringify (.obj [("net_price", .num (.num (2469 / 20)))])⟩]⟩ := by
  intro stringify data
  refine ⟨rfl, rfl, rfl, rfl, rfl, ?_⟩
  have hconv : convertAllMonetaryFields (.obj [("net_price", .num (.num 12345))]) =
      .obj [("net_price", .num (.num (2469 / 20)))] := by
    show JVal.obj (convertAllMonetaryFieldsEntries [("net_price", .num (.num 12345))]) =
      .obj [("net_price", .num (.num (2469 / 20)))]
    rw [convertAllMonetaryFieldsEntries]
    have h1 : ((12345 : ℚ)) = ((12345 : ℕ) : ℚ) := by norm_num
    simp only [convertMonetaryValue, convertAllMonetaryFieldsEntries]
    rw [show MONETARY_FIELDS.contains "net_price" = true from rfl]
    simp only [if_true]
    rw [h1, groszeToPLN_natCast]
    norm_num
  show invoiceCreateJsonResponse stringify (.obj [("net_price", .num (.num 12345))]) =
    ⟨[⟨"text", stringify (.obj [("net_price", .num (.num (2469 / 20)))])⟩]⟩
  rw [invoiceCreateJsonResponse, hconv]

/-- C8: pagination validation accepts a missing `limit` and a `limit` of
exactly 100, rejects 101 (rather than clamping) and rejects 0 (not
positive); a present `offset` must be a finite non-negative number, so any
negative offset throws regardless of the limit. -/
theorem validatePaginationParams_limits :
    validatePaginationParams .undefined .undefined = .ok () ∧
    validatePaginationParams .undefined (.num (.num 100)) = .ok () ∧
    validatePaginationParams .undefined (.num (.num 101)) =
      .error ⟨"limit", "must not exceed 100"⟩ ∧
    validatePaginationParams .undefined (.num (.num 0)) =
      .error ⟨"limit", "must be a positive number"⟩ ∧
    (∀ q : ℚ, q < 0 → ∀ limit, validatePaginationParams (.num (.num q)) limit =
      .error ⟨"offset", "must be a non-negative number"⟩) := by
  refine ⟨rfl, rfl, rfl, rfl, ?_⟩
  intro q hq limit
  have h1 : validateNonNegativeNumber (.num (.num q)) "offset" =
      .error ⟨"offset", "must be a non-negative number"⟩ := by
    simp [validateNonNegativeNumber, jsLtZero, hq]
  simp [validatePaginationParams, isUndefined, h1, Bind.bind, Except.bind]

/-- Witness for C8 at a concrete input: offset -1 throws no matter the
limit. -/
theorem validatePaginationParams_limits_witness :
    validatePaginationParams (.num (.num (-1))) (.num (.num 50)) =
      .error ⟨"offset", "must be a non-negative number"⟩ :=
  validatePaginationParams_limits.2.2.2.2 (-1) (by norm_num) (.num (.num 50))

/-- C9: for an HTTP 422 failure whose body is
`{"errors": ["name is blank", "tax_symbol invalid"]}`, the extracted message
is the two errors joined by ", ", and the `McpError` the handler throws is
categorized `InvalidParams`, its message embedding that joined string. -/
theorem extract422_joined_invalid_params :
    ∀ stringify : JVal → String,
      extractErrorMessage c9AxiosError = "name is blank, tax_symbol invalid" ∧
      (handleApiError stringify (.axios c9AxiosError)).code =
        ErrorCode.InvalidParams ∧
      (handleApiError stringify (.axios c9AxiosError)).message =
        "inFakt API error (422): name is blank, tax_symbol invalid" ++
          ("\nDetails: " ++ stringify c9Body) := by
  intro stringify
  refine ⟨rfl, rfl, ?_⟩
  show ("inFakt API error (" ++ statusDisplay (some 422) ++ "): " ++
      extractErrorMessage c9AxiosError ++
      (if jsTruthy c9Body then "\nDetails: " ++ stringify c9Body else "")) =
    "inFakt API error (422): name is blank, tax_symbol invalid" ++
      ("\nDetails: " ++ stringify c9Body)
  rw [show extractErrorMessage c9AxiosError =
    "name is blank, tax_symbol invalid" from rfl]
  rw [show jsTruthy c9Body = true from rfl]
  simp only [if_true, String.append_assoc]
  rfl

/-- C10: whenever `loadConfig` succeeds, the sandbox flag wins over the
explicit base-URL override: with `INFAKT_USE_SANDBOX` parsed true the base
URL is the fixed sandbox endpoint even if `INFAKT_BASE_URL` is set; with the
flag false or absent the override is used, with the production endpoint as
the fallback. -/
theorem loadConfig_sandbox_precedence :
    ∀ (urlValid : String → Bool) (env : Env) (c : ServerConfig),
      loadConfig urlValid env = .ok c →
      (parseBooleanEnvVar env "INFAKT_USE_SANDBOX" false = true →
        c.baseUrl = API_ENDPOINTS_SANDBOX) ∧
      (parseBooleanEnvVar env "INFAKT_USE_SANDBOX" false = false →
        c.baseUrl = (env "INFAKT_BASE_URL").getD API_ENDPOINTS_PRODUCTION) := by
  intro uv env c h
  cases hk : env "INFAKT_API_KEY" with
  | none =>
    simp only [loadConfig, hk] at h
    cases h
  | some apiKey =>
    simp only [loadConfig, hk] at h
    by_cases h1 : apiKey = ""
    · rw [if_pos h1] at h
      cases h
    · rw [if_neg h1] at h
      by_cases h2 : apiKey.length < 10
      · rw [if_pos h2] at h
        cases h
      · rw [if_neg h2] at h
        cases hs : parseBooleanEnvVar env "INFAKT_USE_SANDBOX" false
        · rw [hs] at h
          simp only [Bool.false_eq_true, if_false] at h
          split at h
          · cases h
            exact ⟨fun hf => absurd hf (by simp), fun _ => rfl⟩
          · cases h
        · rw [hs] at h
          simp only [if_true] at h
          split at h
          · cases h
            exact ⟨fun _ => rfl, fun hf => absurd hf (by simp)⟩
          · cases h

/-- Witness for C10: with the sandbox flag set and `INFAKT_BASE_URL` also
set, the loaded base URL is the sandbox endpoint. -/
theorem loadConfig_sandbox_precedence_witness :
    (ServerConfig.mk "0123456789" API_ENDPOINTS_SANDBOX true).baseUrl =
      API_ENDPOINTS_SANDBOX :=
  (loadConfig_sandbox_precedence (fun _ => true) c10Env
    ⟨"0123456789", API_ENDPOINTS_SANDBOX, true⟩ (by rfl)).1 (by rfl)

lemma liftV_error (r : Except ValidationError Unit) (t : Thrown)
    (h : liftV r = .error t) : ∃ e, r = .error e ∧ t = .vErr e := by
  cases r with
  | error e =>
    refine ⟨e, rfl, ?_⟩
    simp only [liftV] at h
    exact (Except.error.inj h).symm
  | ok u => simp [liftV] at h

lemma validateRequiredString_error_field (v : JVal) (f : String)
    (e : ValidationError) (h : validateRequiredString v f = .error e) :
    e.field = f := by
  cases v <;> simp only [validateRequiredString] at h
  case str s =>
    split at h
    · cases h; rfl
    · cases h
  all_goals (cases h; rfl)

lemma validateEnum_error_field (v : JVal) (f : String) (vs : List String)
    (e : ValidationError) (h : validateEnum v f vs = .error e) :
    e.field = f := by
  cases v <;> simp only [validateEnum] at h
  case str s =>
    split at h
    · cases h
    · cases h; rfl
  all_goals (cases h; rfl)

lemma validateDateString_error_field (v : JVal) (f : String)
    (e : ValidationError) (h : validateDateString v f = .error e) :
    e.field = f := by
  cases v <;> simp only [validateDateString] at h
  case str s =>
    split at h
    · cases h; rfl
    · split at h
      · split at h
        · cases h
        · cases h; rfl
      · cases h; rfl
  all_goals (cases h; rfl)

lemma validateArrayItems_error_field
    (validator : JVal → ℕ → Except ValidationError Unit) :
    ∀ (items : List JVal) (idx : ℕ) (e : ValidationError),
      validateArrayItems "services" validator idx items = .error e →
      ∃ (i : ℕ) (rest : String), e.field = "services[" ++ toString i ++ "]." ++ rest
  | [], _, _, h => by simp [validateArrayItems] at h
  | item :: rest, idx, e, h => by
    rw [validateArrayItems] at h
    split at h
    · exact validateArrayItems_error_field validator rest (idx + 1) e h
    · cases h
      exact ⟨idx, _, rfl⟩

lemma validateArray_services_error_field (v : JVal) (e : ValidationError)
    (h : validateArray v "services" (some validateInvoiceService) = .error e) :
    e.field = "services" ∨
      ∃ (i : ℕ) (rest : String), e.field = "services[" ++ toString i ++ "]." ++ rest := by
  cases v <;> simp only [validateArray] at h
  case arr items =>
    split at h
    · cases h; exact Or.inl rfl
    · exact Or.inr (validateArrayItems_error_field validateInvoiceService
        items 0 e h)
  all_goals (cases h; exact Or.inl rfl)

lemma seqE_error_cases (a b : Except Thrown Unit) (t : Thrown)
    (h : seqE a b = .error t) : a = .error t ∨ b = .error t := by
  cases a with
  | error e => exact Or.inl h
  | ok u => exact Or.inr h

/-- C5 counterexample: `createInvoice` rejects a missing `services` array
with a plain `new Error("services is required")` — not a `ValidationError`,
so the rejection carries no field path at all (though it does precede any
network call). -/
theorem createInvoice_missing_services_cex :
    createInvoiceValidate c5Args = .error (.genErr "services is required") ∧
    thrownIsValidationError (createInvoiceValidate c5Args) = false ∧
    createInvoiceRequests c5Args = [] :=
  ⟨rfl, rfl, rfl⟩

/-- C5 (amended): every argument rejection of `createInvoice` is raised
before the network call (no request is issued); except for the two plain
`new Error` rejections — a falsy `services` and a missing `paid_date` with
status "paid", which carry no field path — every rejection is a
`ValidationError` whose field is either the offending top-level argument
name or a `services[index].…` path produced by `validateArray`. -/
theorem createInvoiceValidate_rejections :
    ∀ args t, createInvoiceValidate args = .error t →
      createInvoiceRequests args = [] ∧
      (t = .genErr "services is required" ∨
       t = .genErr "paid_date is required when status is 'paid'" ∨
       ∃ e, t = .vErr e ∧
         (e.field ∈ ["client_company_name", "payment_method", "status",
            "paid_date", "invoice_date", "sale_date", "payment_date",
            "services"] ∨
          ∃ (i : ℕ) (rest : String),
            e.field = "services[" ++ toString i ++ "]." ++ rest)) := by
  intro args t h
  refine ⟨by simp [createInvoiceRequests, h], ?_⟩
  unfold createInvoiceValidate at h
  rcases seqE_error_cases _ _ _ h with h | h
  · obtain ⟨e, he, rfl⟩ := liftV_error _ _ h
    have hf := validateRequiredString_error_field _ _ _ he
    exact Or.inr (Or.inr ⟨e, rfl, Or.inl (by simp [hf])⟩)
  rcases seqE_error_cases _ _ _ h with h | h
  · obtain ⟨e, he, rfl⟩ := liftV_error _ _ h
    have hf := validateRequiredString_error_field _ _ _ he
    exact Or.inr (Or.inr ⟨e, rfl, Or.inl (by simp [hf])⟩)
  rcases seqE_error_cases _ _ _ h with h | h
  · obtain ⟨e, he, rfl⟩ := liftV_error _ _ h
    have hf := validateEnum_error_field _ _ _ _ he
    exact Or.inr (Or.inr ⟨e, rfl, Or.inl (by simp [hf])⟩)
  rcases seqE_error_cases _ _ _ h with h | h
  · split at h
    · cases h
      exact Or.inl rfl
    · cases h
  rcases seqE_error_cases _ _ _ h with h | h
  · obtain ⟨e, he, rfl⟩ := liftV_error _ _ h
    rcases validateArray_services_error_field _ _ he with hf | hf
    · exact Or.inr (Or.inr ⟨e, rfl, Or.inl (by simp [hf])⟩)
    · exact Or.inr (Or.inr ⟨e, rfl, Or.inr hf⟩)
  rcases seqE_error_cases _ _ _ h with h | h
  · split at h
    · obtain ⟨e, he, rfl⟩ := liftV_error _ _ h
      have hf := validateEnum_error_field _ _ _ _ he
      exact Or.inr (Or.inr ⟨e, rfl, Or.inl (by simp [hf])⟩)
    · cases h
  rcases seqE_error_cases _ _ _ h with h | h
  · split at h
    · rcases seqE_error_cases _ _ _ h with h | h
      · split at h
        · cases h
          exact Or.inr (Or.inl rfl)
        · cases h
      · obtain ⟨e, he, rfl⟩ := liftV_error _ _ h
        have hf := validateDateString_error_field _ _ _ he
        exact Or.inr (Or.inr ⟨e, rfl, Or.inl (by simp [hf])⟩)
    · cases h
  rcases seqE_error_cases _ _ _ h with h | h
  · split at h
    · obtain ⟨e, he, rfl⟩ := liftV_error _ _ h
      have hf := validateDateString_error_field _ _ _ he
      exact Or.inr (Or.inr ⟨e, rfl, Or.inl (by simp [hf])⟩)
    · cases h
  rcases seqE_error_cases _ _ _ h with h | h
  · split at h
    · obtain ⟨e, he, rfl⟩ := liftV_error _ _ h
      have hf := validateDateString_error_field _ _ _ he
      exact Or.inr (Or.inr ⟨e, rfl, Or.inl (by simp [hf])⟩)
    · cases h
  · split at h
    · obtain ⟨e, he, rfl⟩ := liftV_error _ _ h
      have hf := validateDateString_error_field _ _ _ he
      exact Or.inr (Or.inr ⟨e, rfl, Or.inl (by simp [hf])⟩)
    · cases h

/-- Witness for C5 at a concrete input: a bad `tax_symbol` in the second
service is rejected before any request, as a `ValidationError` on the
qualified path `services[1].tax_symbol`. -/
theorem createInvoiceValidate_rejections_witness :
    createInvoiceRequests c5WitnessArgs = [] ∧
    createInvoiceValidate c5WitnessArgs =
      .error (.vErr ⟨"services[1].tax_symbol",
        "is required and must be a string or number"⟩) := by
  have h2 : createInvoiceValidate c5WitnessArgs =
      .error (.vErr ⟨"services[1].tax_symbol",
        "is required and must be a string or number"⟩) := rfl
  exact ⟨(createInvoiceValidate_rejections c5WitnessArgs _ h2).1, h2⟩

/-- C6 counterexample: through `validateArray` the all-prices-missing
rejection is re-attributed to `services[0].services`, which is not the
containing array field `services` itself. -/
theorem validateArray_price_attribution_cex :
    validateArray (.arr [c6NoPriceItem]) "services"
        (some validateInvoiceService) =
      .error ⟨"services[0].services", servicePriceMsg⟩ ∧
    "services[0].services" ≠ "services" := by
  exact ⟨rfl, by decide⟩

/-- C6 (amended): `validateInvoiceService` accepts a line item with a
non-empty name, a string or numeric `tax_symbol` and only a non-negative
`gross_price`; an item with none of the three price fields is rejected with
the error attributed to the field name `services` (no specific price field);
through `validateArray` on the `services` field that rejection resurfaces on
the path `services[index].services` — derived from the array field, still
naming no price field, but not the bare array field name. -/
theorem validateInvoiceService_price_rules :
    (∀ (i : ℕ) (q : ℚ), 0 ≤ q →
      validateInvoiceService (c6GrossItem q) i = .ok ()) ∧
    (∀ (i : ℕ) (q : ℚ), 0 ≤ q →
      validateInvoiceService (c6GrossItemNumTax q) i = .ok ()) ∧
    (∀ i : ℕ, validateInvoiceService c6NoPriceItem i =
      .error ⟨"services", servicePriceMsg⟩) ∧
    validateArray (.arr [c6NoPriceItem]) "services"
        (some validateInvoiceService) =
      .error ⟨"services[0].services", servicePriceMsg⟩ := by
  refine ⟨?_, ?_, fun i => rfl, rfl⟩ <;>
  · intro i q hq
    have hd : validateNonNegativeNumber (.num (.num q)) "gross_price" =
        .ok () := by
      simp [validateNonNegativeNumber, jsLtZero, jsIsFinite,
        decide_eq_false (not_lt.2 hq)]
    show seqE (validateNonNegativeNumber (.num (.num q)) "gross_price")
      (.ok ()) = .ok ()
    rw [hd]
    rfl

/-- Witness for C6 at concrete inputs: a 123.00-PLN gross-only item passes,
and an item without prices is rejected on the field `services`. -/
theorem validateInvoiceService_price_rules_witness :
    validateInvoiceService (c6GrossItem 12300) 0 = .ok () ∧
    validateInvoiceService c6NoPriceItem 3 =
      .error ⟨"services", servicePriceMsg⟩ :=
  ⟨validateInvoiceService_price_rules.1 0 12300 (by norm_num),
   validateInvoiceService_price_rules.2.2.1 3⟩

lemma daysInMonth_ge (y : ℤ) (m : ℕ) : 28 ≤ daysInMonth y m := by
  unfold daysInMonth
  split_ifs <;> norm_num

lemma rollForward_month_mem :
    ∀ (fuel : ℕ) (y : ℤ) (m d : ℕ), 1 ≤ m → m ≤ 12 →
      1 ≤ (rollForward fuel y m d).2.1 ∧ (rollForward fuel y m d).2.1 ≤ 12 := by
  intro fuel
  induction fuel with
  | zero => intro y m d h1 h2; exact ⟨h1, h2⟩
  | succ n ih =>
    intro y m d h1 h2
    rw [rollForward]
    split
    · split
      · exact ih _ _ _ (by norm_num) (by norm_num)
      · next hm => exact ih _ _ _ (by omega) (by omega)
    · exact ⟨h1, h2⟩

lemma rollForward_day_pos :
    ∀ (fuel : ℕ) (y : ℤ) (m d : ℕ), 1 ≤ d →
      1 ≤ (rollForward fuel y m d).2.2 := by
  intro fuel
  induction fuel with
  | zero => intro y m d h1; exact h1
  | succ n ih =>
    intro y m d h1
    rw [rollForward]
    split
    · next hgt =>
        split
        · exact ih _ _ _ (by omega)
        · exact ih _ _ _ (by omega)
    · exact h1

lemma rollForward_day_le :
    ∀ (fuel : ℕ) (y : ℤ) (m d : ℕ), (rollForward fuel y m d).2.2 ≤ d := by
  intro fuel
  induction fuel with
  | zero => intro y m d; exact le_refl d
  | succ n ih =>
    intro y m d
    rw [rollForward]
    split
    · next hgt =>
        split
        · exact le_trans (ih _ _ _) (by omega)
        · exact le_trans (ih _ _ _) (by omega)
    · exact le_refl d

lemma normMonth_of_valid (m : ℕ) (h1 : 1 ≤ m) (h2 : m ≤ 12) :
    normMonth m = m := by
  unfold normMonth
  have ha : (0 : ℤ) ≤ (m : ℤ) - 1 := by omega
  have hb : ((m : ℤ) - 1) < 12 := by omega
  rw [Int.emod_eq_of_lt ha hb]
  omega

lemma normYear_of_valid (y : ℤ) (m : ℕ) (h1 : 1 ≤ m) (h2 : m ≤ 12) :
    normYear y m = y := by
  unfold normYear
  have ha : (0 : ℤ) ≤ (m : ℤ) - 1 := by omega
  have hb : ((m : ℤ) - 1) < 12 := by omega
  rw [Int.ediv_eq_zero_of_lt ha hb, add_zero]

lemma normMonth_mem (m : ℕ) : 1 ≤ normMonth m ∧ normMonth m ≤ 12 := by
  unfold normMonth
  have h0 : (0 : ℤ) ≤ ((m : ℤ) - 1) % 12 := Int.emod_nonneg _ (by norm_num)
  have h12 : ((m : ℤ) - 1) % 12 < 12 := Int.emod_lt_of_pos _ (by norm_num)
  omega

lemma dateGetUTCComponents_of_valid (y : ℤ) (m d : ℕ)
    (hv : calendarValid y m d) :
    dateGetUTCComponents y m d = (y, m, d) := by
  obtain ⟨h1, h2, h3, h4⟩ := hv
  unfold dateGetUTCComponents
  rw [if_neg (by omega : ¬(d = 0)),
    normMonth_of_valid m h1 h2, normYear_of_valid y m h1 h2,
    show (8 : ℕ) = 7 + 1 from rfl, rollForward, if_neg (by omega)]

lemma dateGetUTCComponents_range (y : ℤ) (m d : ℕ) :
    (1 ≤ (dateGetUTCComponents y m d).2.1 ∧
      (dateGetUTCComponents y m d).2.1 ≤ 12) ∧
    (d ≠ 0 → 1 ≤ (dateGetUTCComponents y m d).2.2) ∧
    (d = 0 → 28 ≤ (dateGetUTCComponents y m d).2.2) := by
  obtain ⟨hma, hmb⟩ := normMonth_mem m
  unfold dateGetUTCComponents
  split
  · next hd0 =>
      split
      · next hm1eq =>
          refine ⟨⟨?_, ?_⟩, fun h => absurd hd0 h, fun _ => ?_⟩
          · dsimp only
            norm_num
          · dsimp only
            norm_num
          · dsimp only
            exact daysInMonth_ge _ _
      · next hne =>
          refine ⟨⟨?_, ?_⟩, fun h => absurd hd0 h, fun _ => ?_⟩
          · dsimp only
            omega
          · dsimp only
            omega
          · dsimp only
            exact daysInMonth_ge _ _
  · next hd0 =>
      exact ⟨rollForward_month_mem 8 _ _ d hma hmb,
        fun _ => rollForward_day_pos 8 _ _ d (by omega),
        fun h => absurd h hd0⟩

lemma dateGetUTCComponents_eq_iff (y : ℤ) (m d : ℕ) :
    dateGetUTCComponents y m d = (y, m, d) ↔ calendarValid y m d := by
  constructor
  · intro h
    obtain ⟨⟨hm1, hm2⟩, hdpos, hd28⟩ := dateGetUTCComponents_range y m d
    rw [h] at hm1 hm2 hdpos hd28
    simp only at hm1 hm2 hdpos hd28
    have hd0 : d ≠ 0 := by
      intro hd
      have := hd28 hd
      omega
    have hdp : 1 ≤ d := by omega
    refine ⟨hm1, hm2, hdp, ?_⟩
    by_contra hgt
    push_neg at hgt
    have hcomp : dateGetUTCComponents y m d =
        rollForward 8 (normYear y m) (normMonth m) d := by
      unfold dateGetUTCComponents
      rw [if_neg hd0]
    rw [normMonth_of_valid m hm1 hm2, normYear_of_valid y m hm1 hm2] at hcomp
    have hlt : (rollForward 8 y m d).2.2 < d := by
      rw [show (8 : ℕ) = 7 + 1 from rfl, rollForward, if_pos hgt]
      have h28 := daysInMonth_ge y m
      split
      · next hm12 =>
          dsimp only
          have hle := rollForward_day_le 7 (y + 1) 1 (d - daysInMonth y m)
          omega
      · next hm12 =>
          dsimp only
          have hle := rollForward_day_le 7 y (m + 1) (d - daysInMonth y m)
          omega
    rw [← hcomp, h] at hlt
    simp only at hlt
    omega
  · exact dateGetUTCComponents_of_valid y m d

lemma isDigit_ne_dash (c : Char) (h : isDigit c = true) : ¬c = '-' := by
  intro hc
  rw [hc] at h
  exact absurd h (by decide)

lemma splitOnDash_dash (cs : List Char) :
    splitOnDash ('-' :: cs) = [] :: splitOnDash cs := by
  rw [splitOnDash, if_pos rfl]

lemma splitOnDash_ne (c : Char) (cs : List Char) (h : ¬c = '-') :
    splitOnDash (c :: cs) =
      match splitOnDash cs with
      | g :: tl => (c :: g) :: tl
      | [] => [[c]] := by
  rw [splitOnDash, if_neg h]

lemma splitOnDash_pattern (y1 y2 y3 y4 m1 m2 d1 d2 : Char)
    (hy1 : ¬y1 = '-') (hy2 : ¬y2 = '-') (hy3 : ¬y3 = '-') (hy4 : ¬y4 = '-')
    (hm1 : ¬m1 = '-') (hm2 : ¬m2 = '-') (hd1 : ¬d1 = '-') (hd2 : ¬d2 = '-') :
    splitOnDash [y1, y2, y3, y4, '-', m1, m2, '-', d1, d2] =
      [[y1, y2, y3, y4], [m1, m2], [d1, d2]] := by
  have e1 : splitOnDash [d2] = [[d2]] := by
    rw [splitOnDash_ne _ _ hd2]
    rfl
  have e2 : splitOnDash [d1, d2] = [[d1, d2]] := by
    rw [splitOnDash_ne _ _ hd1, e1]
  have e3 : splitOnDash ['-', d1, d2] = [[], [d1, d2]] := by
    rw [splitOnDash_dash, e2]
  have e4 : splitOnDash [m2, '-', d1, d2] = [[m2], [d1, d2]] := by
    rw [splitOnDash_ne _ _ hm2, e3]
  have e5 : splitOnDash [m1, m2, '-', d1, d2] = [[m1, m2], [d1, d2]] := by
    rw [splitOnDash_ne _ _ hm1, e4]
  have e6 : splitOnDash ['-', m1, m2, '-', d1, d2] =
      [[], [m1, m2], [d1, d2]] := by
    rw [splitOnDash_dash, e5]
  have e7 : splitOnDash [y4, '-', m1, m2, '-', d1, d2] =
      [[y4], [m1, m2], [d1, d2]] := by
    rw [splitOnDash_ne _ _ hy4, e6]
  have e8 : splitOnDash [y3, y4, '-', m1, m2, '-', d1, d2] =
      [[y3, y4], [m1, m2], [d1, d2]] := by
    rw [splitOnDash_ne _ _ hy3, e7]
  have e9 : splitOnDash [y2, y3, y4, '-', m1, m2, '-', d1, d2] =
      [[y2, y3, y4], [m1, m2], [d1, d2]] := by
    rw [splitOnDash_ne _ _ hy2, e8]
  rw [splitOnDash_ne _ _ hy1, e9]

/-- C7: `validateDateString` accepts a string exactly when it matches the
fixed `YYYY-MM-DD` pattern and its parsed components form a calendar-valid
date — checked by round-tripping the components through the `Date` UTC
getters; in particular the impossible 2024-02-30 and 2024-13-01 are
rejected while the leap-year 2024-02-29 is accepted. -/
theorem validateDateString_calendar :
    (∀ (s fn : String),
      validateDateString (.str s) fn = .ok () ↔
        (matchesDatePattern s = true ∧
          calendarValid ((dateComponents s).1 : ℤ) (dateComponents s).2.1
            (dateComponents s).2.2)) ∧
    validateDateString (.str "2024-02-29") "paid_date" = .ok () ∧
    validateDateString (.str "2024-02-30") "paid_date" =
      .error ⟨"paid_date", "is not a valid date"⟩ ∧
    validateDateString (.str "2024-13-01") "paid_date" =
      .error ⟨"paid_date", "is not a valid date"⟩ := by
  refine ⟨?_, rfl, rfl, rfl⟩
  intro s fn
  cases hp : matchesDatePattern s with
  | false =>
    constructor
    · intro h
      simp only [validateDateString, hp, Bool.not_false, if_true] at h
      exact absurd h (by simp)
    · rintro ⟨hq, -⟩
      exact Bool.noConfusion hq
  | true =>
    unfold matchesDatePattern at hp
    split at hp
    case h_2 => exact Bool.noConfusion hp
    case h_1 y1 y2 y3 y4 h1 m1 m2 h2 d1 d2 heq =>
      simp only [Bool.and_eq_true, decide_eq_true_eq] at hp
      obtain ⟨⟨⟨⟨⟨⟨⟨⟨⟨hdy1, hdy2⟩, hdy3⟩, hdy4⟩, hh1⟩, hdm1⟩, hdm2⟩, hh2⟩,
        hdd1⟩, hdd2⟩ := hp
      subst hh1
      subst hh2
      have hsplit : splitOnDash s.toList =
          [[y1, y2, y3, y4], [m1, m2], [d1, d2]] := by
        rw [heq]
        exact splitOnDash_pattern y1 y2 y3 y4 m1 m2 d1 d2
          (isDigit_ne_dash _ hdy1) (isDigit_ne_dash _ hdy2)
          (isDigit_ne_dash _ hdy3) (isDigit_ne_dash _ hdy4)
          (isDigit_ne_dash _ hdm1) (isDigit_ne_dash _ hdm2)
          (isDigit_ne_dash _ hdd1) (isDigit_ne_dash _ hdd2)
      have hmap : (splitOnDash s.toList).map numberOfDigitChars =
          [numberOfDigitChars [y1, y2, y3, y4],
            numberOfDigitChars [m1, m2], numberOfDigitChars [d1, d2]] := by
        rw [hsplit]
        rfl
      have hpat : matchesDatePattern s = true := by
        unfold matchesDatePattern
        rw [heq]
        simp [hdy1, hdy2, hdy3, hdy4, hdm1, hdm2, hdd1, hdd2]
      have hdc : dateComponents s =
          (numberOfDigitChars [y1, y2, y3, y4],
            numberOfDigitChars [m1, m2], numberOfDigitChars [d1, d2]) := by
        unfold dateComponents
        rw [hmap]
      simp only [validateDateString, hpat, hmap, hdc, Bool.not_true,
        Bool.false_eq_true, if_false]
      by_cases hvalid : calendarValid ((numberOfDigitChars [y1, y2, y3, y4] : ℕ) : ℤ)
          (numberOfDigitChars [m1, m2]) (numberOfDigitChars [d1, d2])
      · rw [if_pos ((dateGetUTCComponents_eq_iff _ _ _).2 hvalid)]
        simp [hvalid]
      · rw [if_neg (fun hc => hvalid ((dateGetUTCComponents_eq_iff _ _ _).1 hc))]
        simp [hvalid]
